import Mathlib

/-!
Verification of the ModernTypewriter component (src/js/typewriter.js).

Shallow embedding conventions:
* JS strings are `List Char`; `str.substring(0, e)` is `substring0` (negative
  end index clamps to 0, as in JS); `word[i]` is `charAt` (JS out-of-range
  indexing yields `undefined`, modelled as `none`).
* `this.charIndex` is an `Int` because the JS code decrements it without a
  lower guard; all other indices are `Nat`.
* Millisecond quantities are `ℚ` (the JS code multiplies speeds by 1.2 / 1.5).
* A tick of `animate` returns `Except String (Widget × Option ℚ)`: an `error`
  models a thrown TypeError, the `Option ℚ` is the delay passed to the
  `setTimeout` self-rescheduling call (`none` when the tick scheduled nothing).
-/

namespace Typewriter

/-- Whitespace for the purposes of `String.prototype.trim` (ASCII part). -/
def isWS (c : Char) : Bool :=
  c = ' ' || c = '\t' || c = '\n' || c = '\r' || c = '\u000B' || c = '\u000C'

/-- JS `str.split(',')`: note `[].split` on the empty string yields `[""]`. -/
def splitComma : List Char → List (List Char)
  | [] => [[]]
  | c :: rest =>
    if c = ',' then [] :: splitComma rest
    else
      match splitComma rest with
      | [] => [[c]]
      | w :: ws => (c :: w) :: ws

/-- JS `str.trim()`: drop whitespace from both ends. -/
def jsTrim (s : List Char) : List Char :=
  ((s.dropWhile isWS).reverse.dropWhile isWS).reverse

/-- `parseWords` (typewriter.js lines 50-53): falsy (empty) input gives `[]`,
otherwise split on comma, trim each piece, drop empty pieces. -/
def parseWords (dataString : List Char) : List (List Char) :=
  if dataString = [] then []
  else ((splitComma dataString).map jsTrim).filter (fun w => decide (0 < w.length))

/-- JS `word.substring(0, e)` with start 0: clamps `e` into `[0, length]`. -/
def substring0 (w : List Char) (e : Int) : List Char :=
  w.take e.toNat

/-- JS `word[i]`: `undefined` (i.e. `none`) when `i` is out of range. -/
def charAt (w : List Char) (i : Int) : Option Char :=
  if 0 ≤ i then w[i.toNat]? else none

/-- The regex `/[.,!?;:]/` of `calculateTypingSpeed`. -/
def isPunctuation (c : Char) : Bool :=
  c = '.' || c = ',' || c = '!' || c = '?' || c = ';' || c = ':'

/-- `this.options`: the seven configuration fields with their defaults. -/
structure Options where
  typingSpeed : ℚ
  deletingSpeed : ℚ
  pauseDuration : ℚ
  cursorChar : List Char
  cursorBlinkSpeed : ℚ
  responsiveBreakpoint : ℚ
  maxWordLength : Nat
deriving DecidableEq

/-- Caller-supplied option overrides (the `options` constructor argument);
`none` means the key is absent from the object literal. -/
structure OptionOverrides where
  typingSpeed : Option ℚ
  deletingSpeed : Option ℚ
  pauseDuration : Option ℚ
  cursorChar : Option (List Char)
  cursorBlinkSpeed : Option ℚ
  responsiveBreakpoint : Option ℚ
  maxWordLength : Option Nat
deriving DecidableEq

/-- The spread `{ defaults..., ...options }` of the constructor. -/
def mergeOptions (ov : OptionOverrides) : Options :=
  { typingSpeed := ov.typingSpeed.getD 100
    deletingSpeed := ov.deletingSpeed.getD 50
    pauseDuration := ov.pauseDuration.getD 2000
    cursorChar := ov.cursorChar.getD ('|' :: [])
    cursorBlinkSpeed := ov.cursorBlinkSpeed.getD 500
    responsiveBreakpoint := ov.responsiveBreakpoint.getD 768
    maxWordLength := ov.maxWordLength.getD 20 }

/-- An absent `options` argument. -/
def noOverrides : OptionOverrides :=
  ⟨none, none, none, none, none, none, none⟩

/-- The mutable state of one ModernTypewriter instance.  `hasText` and
`hasCursor` record whether `element.querySelector` found the two required
sub-elements (a missing one is `null` in JS); `rendered` is
`textElement.textContent`; `warned` records that the constructor emitted its
`console.warn` diagnostic; `animationId` records a live
`requestAnimationFrame` handle. -/
structure Widget where
  words : List (List Char)
  currentIndex : Nat
  charIndex : Int
  isDeleting : Bool
  isRunning : Bool
  animationId : Bool
  originalWords : Option (List (List Char))
  opts : Options
  hasText : Bool
  hasCursor : Bool
  rendered : List Char
  warned : Bool
deriving DecidableEq

/-- `calculateTypingSpeed` (typewriter.js lines 189-205). -/
def calculateTypingSpeed (o : Options) (word : List Char) (charIndex : Int) : ℚ :=
  let baseSpeed := o.typingSpeed
  if charIndex = 0 ∨ charIndex = (word.length : Int) - 1 then baseSpeed * 1.2
  else
    match charAt word (charIndex - 1) with
    | some prevChar => if isPunctuation prevChar then baseSpeed * 1.5 else baseSpeed
    | none => baseSpeed

/-- `animate` (typewriter.js lines 153-187).  Faithful to evaluation order:
the `isRunning` guard runs first; `this.words[this.currentIndex]` out of
range yields `undefined` whose `.substring` throws; assigning
`this.textElement.textContent` throws when the text element is `null`. -/
def animate (s : Widget) : Except String (Widget × Option ℚ) :=
  if s.isRunning = false then .ok (s, none)
  else
    match s.words[s.currentIndex]? with
    | none => .error "TypeError: currentWord is undefined"
    | some w =>
      if s.hasText = false then .error "TypeError: textElement is null"
      else if s.isDeleting then
        let c := s.charIndex - 1
        if c = 0 then
          .ok ({ s with
                 rendered := substring0 w c, charIndex := c, isDeleting := false,
                 currentIndex := (s.currentIndex + 1) % s.words.length,
                 animationId := true }, some 300)
        else
          .ok ({ s with rendered := substring0 w c, charIndex := c, animationId := true },
               some s.opts.deletingSpeed)
      else
        let c := s.charIndex + 1
        if c = (w.length : Int) then
          .ok ({ s with
                 rendered := substring0 w c, charIndex := c, isDeleting := true,
                 animationId := true }, some s.opts.pauseDuration)
        else
          .ok ({ s with rendered := substring0 w c, charIndex := c, animationId := true },
               some (calculateTypingSpeed s.opts w c))

/-- `stop` (typewriter.js lines 145-151): clear the running flag and cancel
the animation-frame handle.  The pending `setTimeout` tick is not cancelled;
it dies at the `isRunning` guard of `animate`. -/
def stop (s : Widget) : Widget :=
  { s with isRunning := false, animationId := false }

/-- `start` (typewriter.js lines 135-141): no-op when already running,
otherwise set the flag and immediately run one `animate` tick. -/
def start (s : Widget) : Except String Widget :=
  if s.isRunning = true then .ok s
  else Except.map Prod.fst (animate { s with isRunning := true })

/-- Run `n` consecutive `animate` ticks (each tick's `setTimeout` firing the
next), propagating a thrown error. -/
def runTicks (s : Widget) : Nat → Except String Widget
  | 0 => .ok s
  | n + 1 =>
    match animate s with
    | .ok p => runTicks p.1 n
    | .error e => .error e

/-- The per-word map inside `truncateLongWords`. -/
def truncateWord (maxLen : Nat) (w : List Char) : List Char :=
  if w.length > maxLen then w.take maxLen ++ ('.' :: '.' :: '.' :: []) else w

/-- `truncateLongWords` (typewriter.js lines 105-115): cache the original
list only when not already cached, then truncate the active list in place. -/
def truncateLongWords (s : Widget) : Widget :=
  { s with
    originalWords := some (s.originalWords.getD s.words)
    words := s.words.map (truncateWord s.opts.maxWordLength) }

/-- `restoreOriginalWords` (typewriter.js lines 117-121). -/
def restoreOriginalWords (s : Widget) : Widget :=
  match s.originalWords with
  | some o => { s with words := o }
  | none => s

/-- `adjustTimingForMobile` (typewriter.js lines 123-127). -/
def adjustTimingForMobile (s : Widget) : Widget :=
  { s with opts := { s.opts with typingSpeed := 80, deletingSpeed := 40, pauseDuration := 1500 } }

/-- `adjustTimingForDesktop` (typewriter.js lines 129-133). -/
def adjustTimingForDesktop (s : Widget) : Widget :=
  { s with opts := { s.opts with typingSpeed := 100, deletingSpeed := 50, pauseDuration := 2000 } }

/-- `handleResponsive` (typewriter.js lines 91-103), evaluated at a given
`window.innerWidth`. -/
def handleResponsive (innerWidth : ℚ) (s : Widget) : Widget :=
  if innerWidth < s.opts.responsiveBreakpoint then
    adjustTimingForMobile (truncateLongWords s)
  else
    adjustTimingForDesktop (restoreOriginalWords s)

/-- The state assembled by the constructor body (typewriter.js lines 7-40)
before the element check: parsed word list, merged options, found/missing
sub-elements.  `init` (which runs `handleResponsive` synchronously; its
delayed `start` fires 300 ms later and is modelled separately) has not run
yet. -/
def initialState (dataWords : List Char) (hasText hasCursor : Bool)
    (ov : OptionOverrides) : Widget :=
  { words := parseWords dataWords, currentIndex := 0, charIndex := 0
    isDeleting := false, isRunning := false, animationId := false
    originalWords := none, opts := mergeOptions ov
    hasText := hasText, hasCursor := hasCursor, rendered := [], warned := false }

/-- The constructor proper: build the initial state, bail out (with the
diagnostic) when a sub-element is missing, otherwise run the synchronous
responsive evaluation of `init`. -/
def construct (dataWords : List Char) (hasText hasCursor : Bool)
    (ov : OptionOverrides) (innerWidth : ℚ) : Widget :=
  if hasText && hasCursor then
    handleResponsive innerWidth (initialState dataWords hasText hasCursor ov)
  else { initialState dataWords hasText hasCursor ov with warned := true }

/-- Whether a modelled JS call threw. -/
def isError {α : Type} : Except String α → Bool
  | .error _ => true
  | .ok _ => false

/-- Extract the state after `n` ticks, defaulting to the start state on a
thrown error (used only to name concrete states in closed statements). -/
def afterTicks (s : Widget) (n : Nat) : Widget :=
  match runTicks s n with
  | .ok t => t
  | .error _ => s

end Typewriter

namespace Typewriter

/-! ### Helper lemmas about one `animate` tick -/

theorem substring0_coe (w : List Char) (n : Nat) : substring0 w (n : Int) = w.take n := by
  simp [substring0]

/-- The rendered text right after one tick (unchanged if the tick threw or
was a no-op). -/
def renderAfter (s : Widget) : List Char :=
  match animate s with
  | .ok p => p.1.rendered
  | .error _ => s.rendered

theorem animate_typing_mid (s : Widget) (w : List Char)
    (hr : s.isRunning = true) (ht : s.hasText = true) (hd : s.isDeleting = false)
    (hw : s.words[s.currentIndex]? = some w) (hc : s.charIndex + 1 ≠ (w.length : Int)) :
    animate s = .ok ({ s with
      rendered := substring0 w (s.charIndex + 1), charIndex := s.charIndex + 1,
      animationId := true }, some (calculateTypingSpeed s.opts w (s.charIndex + 1))) := by
  simp [animate, hr, ht, hd, hw, hc]

theorem animate_typing_end (s : Widget) (w : List Char)
    (hr : s.isRunning = true) (ht : s.hasText = true) (hd : s.isDeleting = false)
    (hw : s.words[s.currentIndex]? = some w) (hc : s.charIndex + 1 = (w.length : Int)) :
    animate s = .ok ({ s with
      rendered := substring0 w (s.charIndex + 1), charIndex := s.charIndex + 1,
      isDeleting := true, animationId := true }, some s.opts.pauseDuration) := by
  simp [animate, hr, ht, hd, hw, hc]

theorem animate_deleting_mid (s : Widget) (w : List Char)
    (hr : s.isRunning = true) (ht : s.hasText = true) (hd : s.isDeleting = true)
    (hw : s.words[s.currentIndex]? = some w) (hc : s.charIndex - 1 ≠ 0) :
    animate s = .ok ({ s with
      rendered := substring0 w (s.charIndex - 1), charIndex := s.charIndex - 1,
      animationId := true }, some s.opts.deletingSpeed) := by
  simp [animate, hr, ht, hd, hw, hc]

theorem animate_deleting_end (s : Widget) (w : List Char)
    (hr : s.isRunning = true) (ht : s.hasText = true) (hd : s.isDeleting = true)
    (hw : s.words[s.currentIndex]? = some w) (hc : s.charIndex = 1) :
    animate s = .ok ({ s with
      rendered := [], charIndex := 0, isDeleting := false,
      currentIndex := (s.currentIndex + 1) % s.words.length,
      animationId := true }, some 300) := by
  simp [animate, hr, ht, hd, hw, hc, substring0]

/-- A mid-animation state over word list `ws` with default element wiring:
running, both sub-elements present, no cached original list. -/
def midState (ws : List (List Char)) (o : Options) (i : Nat) (c : Int)
    (del : Bool) (r : List Char) : Widget :=
  { words := ws, currentIndex := i, charIndex := c, isDeleting := del,
    isRunning := true, animationId := true, originalWords := none, opts := o,
    hasText := true, hasCursor := true, rendered := r, warned := false }

/-! ### Claim C1 -/

/-- Claim C1: for a running widget whose current word is `w`, the tick that
ends a Typing run (the one that takes `charIndex` to `w.length`) renders the
full word `w`, and the tick that ends a Deleting run (the one that takes
`charIndex` to 0) renders the empty string. -/
theorem c1_run_end_renders (s : Widget) (w : List Char)
    (hr : s.isRunning = true) (ht : s.hasText = true)
    (hw : s.words[s.currentIndex]? = some w) :
    (s.isDeleting = false → s.charIndex + 1 = (w.length : Int) → renderAfter s = w) ∧
    (s.isDeleting = true → s.charIndex = 1 → renderAfter s = []) := by
  constructor
  · intro hd hc
    rw [renderAfter, animate_typing_end s w hr ht hd hw hc]
    rw [hc, substring0_coe, List.take_length]
  · intro hd hc
    rw [renderAfter, animate_deleting_end s w hr ht hd hw hc]

def c1T : Widget := midState (('H' :: 'i' :: []) :: []) (mergeOptions noOverrides) 0 1 false ('H' :: [])

def c1D : Widget := midState (('H' :: 'i' :: []) :: []) (mergeOptions noOverrides) 0 1 true ('H' :: [])

/-- Witness for C1: with word "Hi", the typing tick from `charIndex = 1`
renders "Hi", and a deleting tick from `charIndex = 1` renders "". -/
theorem c1_run_end_renders_witness :
    (c1T.isRunning = true ∧ c1T.hasText = true ∧
      c1T.words[c1T.currentIndex]? = some ('H' :: 'i' :: []) ∧
      c1T.isDeleting = false ∧ c1T.charIndex + 1 = ((('H' :: 'i' :: []).length : Nat) : Int) ∧
      renderAfter c1T = 'H' :: 'i' :: []) ∧
    (c1D.isDeleting = true ∧ c1D.charIndex = 1 ∧ renderAfter c1D = []) :=
  ⟨⟨rfl, rfl, rfl, rfl, by decide,
    (c1_run_end_renders c1T ('H' :: 'i' :: []) rfl rfl rfl).1 rfl (by decide)⟩,
   ⟨rfl, rfl, (c1_run_end_renders c1D ('H' :: 'i' :: []) rfl rfl rfl).2 rfl rfl⟩⟩

/-! ### Claim C3 -/

/-- Claim C3: `calculateTypingSpeed` returns base×1.2 for the first or last
character index, else base×1.5 when the previous character is punctuation,
else the base speed; the first/last check takes precedence.  For the word
"Hi.": index 0 gives base×1.2, index 1 the base speed, index 2 base×1.2. -/
theorem c3_calculateTypingSpeed (o : Options) (w : List Char) (i : Int) :
    calculateTypingSpeed o w i =
      (if i = 0 ∨ i = (w.length : Int) - 1 then o.typingSpeed * 1.2
       else if (charAt w (i - 1)).any isPunctuation then o.typingSpeed * 1.5
       else o.typingSpeed) ∧
    calculateTypingSpeed o ('H' :: 'i' :: '.' :: []) 0 = o.typingSpeed * 1.2 ∧
    calculateTypingSpeed o ('H' :: 'i' :: '.' :: []) 1 = o.typingSpeed ∧
    calculateTypingSpeed o ('H' :: 'i' :: '.' :: []) 2 = o.typingSpeed * 1.2 := by
  refine ⟨?_, ?_, ?_, ?_⟩
  · rw [calculateTypingSpeed]
    by_cases h : i = 0 ∨ i = (w.length : Int) - 1
    · simp [h]
    · simp only [h, if_false]
      cases hca : charAt w (i - 1) with
      | none => simp
      | some c => simp
  · simp [calculateTypingSpeed]
  · have h1 : ¬ ((1 : Int) = 0 ∨ (1 : Int) = (((('H' :: 'i' :: '.' :: []).length : Nat)) : Int) - 1) := by
      decide
    have hc : charAt ('H' :: 'i' :: '.' :: []) (1 - 1) = some 'H' := by decide
    have hp : isPunctuation 'H' = false := by decide
    rw [calculateTypingSpeed]
    simp only [h1, if_false, hc, hp]
    simp
  · have h2 : ((2 : Int) = 0 ∨ (2 : Int) = (((('H' :: 'i' :: '.' :: []).length : Nat)) : Int) - 1) := by
      decide
    rw [calculateTypingSpeed]
    simp [h2]

/-! ### Claim C5 -/

/-- Claim C5 (code behavior at the failing input): a tick on a running widget
whose word list is empty throws (JS: `this.words[0]` is `undefined`, and
`undefined.substring` raises a TypeError); it is not a guarded no-op. -/
theorem c5_empty_words_tick_throws (s : Widget)
    (hr : s.isRunning = true) (hw : s.words = []) :
    isError (animate s) = true := by
  simp [animate, hr, hw, isError]

def c5S : Widget :=
  { construct [] true true noOverrides 1024 with isRunning := true }

/-- Witness for C5: the widget constructed from an empty `data-words`
attribute, once its delayed `start` has set the running flag, throws on its
first tick. -/
theorem c5_empty_words_tick_throws_witness :
    c5S.isRunning = true ∧ c5S.words = [] ∧ isError (animate c5S) = true :=
  ⟨rfl, by decide, c5_empty_words_tick_throws c5S rfl (by decide)⟩

/-! ### Claim C10: parsing -/

theorem head_dropWhile_not (p : Char → Bool) :
    ∀ l : List Char, ∀ c : Char, (l.dropWhile p).head? = some c → p c = false := by
  intro l
  induction l with
  | nil => intro c h; simp [List.dropWhile] at h
  | cons a t ih =>
    intro c h
    rw [List.dropWhile_cons] at h
    by_cases hp : p a = true
    · exact ih c (by simpa [hp] using h)
    · simp [hp] at h
      subst h
      simpa using hp

theorem getLast_dropWhile_eq (p : Char → Bool) :
    ∀ l : List Char, l.dropWhile p ≠ [] → (l.dropWhile p).getLast? = l.getLast? := by
  intro l
  induction l with
  | nil => intro h; simp [List.dropWhile] at h
  | cons a t ih =>
    intro h
    rw [List.dropWhile_cons] at h ⊢
    by_cases hp : p a = true
    · have ht : t.dropWhile p ≠ [] := by simpa [hp] using h
      have htne : t ≠ [] := by
        intro he
        subst he
        simp [List.dropWhile] at ht
      obtain ⟨b, t2, rfl⟩ := List.exists_cons_of_ne_nil htne
      simp [hp, ih ht, List.getLast?_cons_cons]
    · simp [hp]

theorem jsTrim_head_not_ws (w : List Char) (c : Char)
    (h : (jsTrim w).head? = some c) : isWS c = false := by
  rw [jsTrim, List.head?_reverse] at h
  have hne : (w.dropWhile isWS).reverse.dropWhile isWS ≠ [] := by
    intro he
    rw [he] at h
    simp at h
  rw [getLast_dropWhile_eq isWS _ hne, List.getLast?_reverse] at h
  exact head_dropWhile_not isWS w c h

theorem jsTrim_getLast_not_ws (w : List Char) (c : Char)
    (h : (jsTrim w).getLast? = some c) : isWS c = false := by
  rw [jsTrim, List.getLast?_reverse] at h
  exact head_dropWhile_not isWS _ c h

/-- Claim C10: `parseWords` splits on comma, trims each piece and drops empty
pieces in order; empty input gives the empty list; every parsed word is
non-empty and carries no leading or trailing whitespace. -/
theorem c10_parseWords (s w : List Char) (hw : w ∈ parseWords s) :
    parseWords [] = [] ∧
    parseWords s = ((splitComma s).map jsTrim).filter (fun u => decide (0 < u.length)) ∧
    w ≠ [] ∧
    (∀ c, w.head? = some c → isWS c = false) ∧
    (∀ c, w.getLast? = some c → isWS c = false) := by
  have hchar : parseWords s
      = ((splitComma s).map jsTrim).filter (fun u => decide (0 < u.length)) := by
    by_cases hs : s = []
    · subst hs
      rfl
    · rw [parseWords, if_neg hs]
  rw [hchar] at hw
  have hmem := (List.mem_filter.mp hw).1
  have hpos : 0 < w.length := by
    have := (List.mem_filter.mp hw).2
    simpa using this
  obtain ⟨u, _, rfl⟩ := List.mem_map.mp hmem
  refine ⟨rfl, hchar, ?_, ?_, ?_⟩
  · exact List.ne_nil_of_length_pos hpos
  · intro c hc
    exact jsTrim_head_not_ws u c hc
  · intro c hc
    exact jsTrim_getLast_not_ws u c hc

/-- Witness for C10 at the concrete input " ab, , cd": the parsed list is
[ "ab", "cd" ] and "ab" is a member. -/
theorem c10_parseWords_witness :
    (('a' :: 'b' :: []) ∈ parseWords (' ' :: 'a' :: 'b' :: ',' :: ' ' :: ',' :: ' ' :: 'c' :: 'd' :: ' ' :: [])) ∧
    parseWords (' ' :: 'a' :: 'b' :: ',' :: ' ' :: ',' :: ' ' :: 'c' :: 'd' :: ' ' :: [])
      = ('a' :: 'b' :: []) :: ('c' :: 'd' :: []) :: [] ∧
    ('a' :: 'b' :: [] : List Char) ≠ [] :=
  ⟨by decide, by decide,
   (c10_parseWords (' ' :: 'a' :: 'b' :: ',' :: ' ' :: ',' :: ' ' :: 'c' :: 'd' :: ' ' :: [])
     ('a' :: 'b' :: []) (by decide)).2.2.1⟩

end Typewriter

namespace Typewriter

theorem tick_typing_mid (ws : List (List Char)) (o : Options) (i : Nat) (w : List Char)
    (j : Nat) (hw : ws[i]? = some w) (hj : j + 1 ≠ w.length) :
    animate (midState ws o i (j : Int) false (w.take j)) =
      .ok (midState ws o i ((j + 1 : Nat) : Int) false (w.take (j + 1)),
           some (calculateTypingSpeed o w ((j + 1 : Nat) : Int))) := by
  have hj2 : ((j : Int) + 1) ≠ (w.length : Int) := by
    intro h
    exact hj (by exact_mod_cast h)
  have e1 : ((j : Int) + 1) = ((j + 1 : Nat) : Int) := by push_cast; ring
  rw [animate_typing_mid (midState ws o i (j : Int) false (w.take j)) w rfl rfl rfl hw hj2]
  simp only [midState]
  rw [e1, substring0_coe]

theorem tick_typing_end (ws : List (List Char)) (o : Options) (i : Nat) (w : List Char)
    (j : Nat) (hw : ws[i]? = some w) (hj : j + 1 = w.length) :
    animate (midState ws o i (j : Int) false (w.take j)) =
      .ok (midState ws o i ((w.length : Nat) : Int) true w, some o.pauseDuration) := by
  have hj2 : ((j : Int) + 1) = (w.length : Int) := by exact_mod_cast hj
  have e1 : ((j : Int) + 1) = ((j + 1 : Nat) : Int) := by push_cast; ring
  rw [animate_typing_end (midState ws o i (j : Int) false (w.take j)) w rfl rfl rfl hw hj2]
  simp only [midState]
  rw [e1, substring0_coe, hj, List.take_length]

theorem tick_deleting_mid (ws : List (List Char)) (o : Options) (i : Nat) (w : List Char)
    (c : Nat) (hw : ws[i]? = some w) (hc : c ≠ 0) :
    animate (midState ws o i ((c + 1 : Nat) : Int) true (w.take (c + 1))) =
      .ok (midState ws o i (c : Int) true (w.take c), some o.deletingSpeed) := by
  have hc2 : (((c + 1 : Nat) : Int) - 1) ≠ 0 := by
    intro h
    apply hc
    omega
  have e1 : (((c + 1 : Nat) : Int) - 1) = ((c : Nat) : Int) := by push_cast; ring
  rw [animate_deleting_mid (midState ws o i ((c + 1 : Nat) : Int) true (w.take (c + 1))) w rfl rfl rfl hw hc2]
  simp only [midState]
  rw [e1, substring0_coe]

theorem tick_deleting_end (ws : List (List Char)) (o : Options) (i : Nat) (w : List Char)
    (hw : ws[i]? = some w) :
    animate (midState ws o i ((1 : Nat) : Int) true (w.take 1)) =
      .ok (midState ws o ((i + 1) % ws.length) 0 false [], some 300) := by
  rw [animate_deleting_end (midState ws o i ((1 : Nat) : Int) true (w.take 1)) w rfl rfl rfl hw (by simp [midState])]
  simp only [midState]

theorem runTicks_add (s : Widget) (a b : Nat) :
    runTicks s (a + b) =
      match runTicks s a with
      | .ok t => runTicks t b
      | .error e => .error e := by
  induction a generalizing s with
  | zero =>
    rw [Nat.zero_add]
    simp [runTicks]
  | succ a ih =>
    have hresoc : a + 1 + b = (a + b) + 1 := by omega
    rw [hresoc]
    rw [runTicks]
    conv_rhs => rw [runTicks]
    cases h : animate s with
    | ok p => simp only [h, ih p.1]
    | error e => simp only [h]

theorem runTicks_typing_run (ws : List (List Char)) (o : Options) (i : Nat) (w : List Char)
    (hw : ws[i]? = some w) :
    ∀ k j : Nat, j + k = w.length → 1 ≤ k →
    runTicks (midState ws o i (j : Int) false (w.take j)) k =
      .ok (midState ws o i ((w.length : Nat) : Int) true w) := by
  intro k
  induction k with
  | zero =>
    intro j hj h1
    exact absurd h1 (by omega)
  | succ k ih =>
    intro j hj h1
    rcases Nat.eq_zero_or_pos k with hk | hk
    · subst hk
      rw [runTicks, tick_typing_end ws o i w j hw (by omega)]
      rfl
    · rw [runTicks, tick_typing_mid ws o i w j hw (by omega)]
      exact ih (j + 1) (by omega) hk

theorem runTicks_deleting_run (ws : List (List Char)) (o : Options) (i : Nat) (w : List Char)
    (hw : ws[i]? = some w) :
    ∀ c : Nat, 1 ≤ c →
    runTicks (midState ws o i (c : Int) true (w.take c)) c =
      .ok (midState ws o ((i + 1) % ws.length) 0 false []) := by
  intro c
  induction c with
  | zero => intro h1; exact absurd h1 (by omega)
  | succ c ih =>
    intro h1
    rcases Nat.eq_zero_or_pos c with hc | hc
    · subst hc
      rw [runTicks, tick_deleting_end ws o i w hw]
      rfl
    · rw [runTicks, tick_deleting_mid ws o i w c hw (by omega)]
      exact ih hc

theorem runTicks_cycle (ws : List (List Char)) (o : Options) (i : Nat) (w : List Char)
    (hw : ws[i]? = some w) (hne : w ≠ []) :
    runTicks (midState ws o i 0 false []) (2 * w.length) =
      .ok (midState ws o ((i + 1) % ws.length) 0 false []) := by
  have hlen : 1 ≤ w.length := List.length_pos.mpr hne
  have h2 : 2 * w.length = w.length + w.length := by omega
  rw [h2, runTicks_add]
  have ht := runTicks_typing_run ws o i w hw w.length 0 (by omega) hlen
  have hz : midState ws o i ((0 : Nat) : Int) false (w.take 0) = midState ws o i 0 false [] := by
    simp [midState]
  rw [hz] at ht
  rw [ht]
  have hd := runTicks_deleting_run ws o i w hw w.length hlen
  rw [List.take_length] at hd
  exact hd

def cycleTicks (ws : List (List Char)) : Nat → Nat → Nat
  | _, 0 => 0
  | i, k + 1 => 2 * (ws.getD i []).length + cycleTicks ws ((i + 1) % ws.length) k

theorem runTicks_cycles (ws : List (List Char)) (o : Options)
    (hne : ∀ w ∈ ws, w ≠ []) :
    ∀ k i : Nat, i < ws.length →
    runTicks (midState ws o i 0 false []) (cycleTicks ws i k) =
      .ok (midState ws o ((i + k) % ws.length) 0 false []) := by
  intro k
  induction k with
  | zero =>
    intro i hi
    rw [cycleTicks, runTicks, Nat.add_zero, Nat.mod_eq_of_lt hi]
  | succ k ih =>
    intro i hi
    rw [cycleTicks, runTicks_add]
    have hwm : ws[i]? = some (ws.getD i []) := by
      rw [List.getElem?_eq_getElem hi, List.getD_eq_getElem ws [] hi]
    have hmem : ws.getD i [] ∈ ws := by
      rw [List.getD_eq_getElem ws [] hi]
      exact List.getElem_mem hi
    rw [runTicks_cycle ws o i (ws.getD i []) hwm (hne _ hmem)]
    show runTicks (midState ws o ((i + 1) % ws.length) 0 false [])
        (cycleTicks ws ((i + 1) % ws.length) k) = _
    rw [ih ((i + 1) % ws.length) (Nat.mod_lt _ (by omega))]
    have : ((i + 1) % ws.length + k) % ws.length = (i + (k + 1)) % ws.length := by
      rw [Nat.mod_add_mod]
      ring_nf
    rw [this]

/-- Claim C2: completing the Deleting run for the word at index `i` advances
the widget to index `(i+1) mod |W|`; running whole type/delete cycles from a
fresh-word state moves the start state from index `i` to `(i+k) mod |W|`, and
`|W|` further cycles land in the identical state, so the sequence of typed
words repeats. -/
theorem c2_cyclic_advance (ws : List (List Char)) (o : Options) (i k : Nat)
    (hne : ∀ w ∈ ws, w ≠ []) (hi : i < ws.length) :
    (∀ s : Widget, s.isRunning = true → s.hasText = true → s.isDeleting = true →
      s.charIndex = 1 → s.words = ws → s.currentIndex = i →
      ∀ s2 d, animate s = .ok (s2, d) → s2.currentIndex = (i + 1) % ws.length) ∧
    runTicks (midState ws o i 0 false []) (cycleTicks ws i k) =
      .ok (midState ws o ((i + k) % ws.length) 0 false []) ∧
    midState ws o ((i + (k + ws.length)) % ws.length) 0 false []
      = midState ws o ((i + k) % ws.length) 0 false [] := by
  refine ⟨?_, runTicks_cycles ws o hne k i hi, ?_⟩
  · intro s hr ht hd hc hws hci s2 d h
    have hw : s.words[s.currentIndex]? = some (ws.getD i []) := by
      rw [hws, hci, List.getElem?_eq_getElem hi, List.getD_eq_getElem ws [] hi]
    rw [animate_deleting_end s _ hr ht hd hw hc] at h
    simp only [Except.ok.injEq, Prod.mk.injEq] at h
    obtain ⟨h1, h2⟩ := h
    rw [← h1]
    simp [hws, hci]
  · have harith : i + (k + ws.length) = (i + k) + ws.length := by omega
    rw [harith, Nat.add_mod_right]

def c2ws : List (List Char) := ('a' :: []) :: ('b' :: 'c' :: []) :: []

/-- Witness for C2: on the two-word list ["a", "bc"], three full cycles from
index 1 land at index (1+3) mod 2. -/
theorem c2_cyclic_advance_witness :
    (∀ w ∈ c2ws, w ≠ []) ∧ 1 < c2ws.length ∧
    runTicks (midState c2ws (mergeOptions noOverrides) 1 0 false [])
        (cycleTicks c2ws 1 3) =
      .ok (midState c2ws (mergeOptions noOverrides) ((1 + 3) % c2ws.length) 0 false []) :=
  ⟨by decide, by decide,
   (c2_cyclic_advance c2ws (mergeOptions noOverrides) 1 3 (by decide) (by decide)).2.1⟩

end Typewriter

namespace Typewriter

/-- The invariant claimed by the spec: `charIndex` within the current word,
`currentWordIndex` within the list. -/
abbrev claimInv (s : Widget) : Prop :=
  0 ≤ s.charIndex ∧ s.charIndex ≤ ((s.words.getD s.currentIndex []).length : Int) ∧
  s.currentIndex < s.words.length

/-- The strengthened form of the invariant that the animation ticks actually
maintain (typing states sit strictly below the word length, deleting states
strictly above 0). -/
abbrev wfInv (s : Widget) : Prop :=
  s.currentIndex < s.words.length ∧
  (if s.isDeleting = true then
    1 ≤ s.charIndex ∧ s.charIndex ≤ ((s.words.getD s.currentIndex []).length : Int)
   else
    0 ≤ s.charIndex ∧ s.charIndex < ((s.words.getD s.currentIndex []).length : Int))

theorem wfInv_claimInv (s : Widget) (h : wfInv s) : claimInv s := by
  obtain ⟨h1, h2⟩ := h
  by_cases hd : s.isDeleting = true
  · rw [if_pos hd] at h2
    exact ⟨by omega, h2.2, h1⟩
  · rw [if_neg hd] at h2
    exact ⟨h2.1, by omega, h1⟩

theorem animate_preserves_wfInv (s : Widget) (hne : ∀ w ∈ s.words, w ≠ [])
    (hinv : wfInv s) :
    ∀ s2 d, animate s = .ok (s2, d) → wfInv s2 := by
  intro s2 d h
  have hn : s.currentIndex < s.words.length := hinv.1
  have hw : s.words[s.currentIndex]? = some (s.words.getD s.currentIndex []) := by
    rw [List.getElem?_eq_getElem hn, List.getD_eq_getElem s.words [] hn]
  rw [animate] at h
  by_cases hr : s.isRunning = false
  · rw [if_pos hr] at h
    simp only [Except.ok.injEq, Prod.mk.injEq] at h
    rw [← h.1]
    exact hinv
  · rw [if_neg hr, hw] at h
    simp only at h
    by_cases htx : s.hasText = false
    · rw [if_pos htx] at h
      exact absurd h (by simp)
    · rw [if_neg htx] at h
      have hinv2 := hinv.2
      by_cases hdel : s.isDeleting = true
      · rw [if_pos hdel] at h
        rw [if_pos hdel] at hinv2
        obtain ⟨hc1, hc2⟩ := hinv2
        by_cases hc0 : s.charIndex - 1 = 0
        · rw [if_pos hc0] at h
          simp only [Except.ok.injEq, Prod.mk.injEq] at h
          rw [← h.1]
          have hlt : (s.currentIndex + 1) % s.words.length < s.words.length :=
            Nat.mod_lt _ (by omega)
          have hmem : s.words.getD ((s.currentIndex + 1) % s.words.length) [] ∈ s.words := by
            rw [List.getD_eq_getElem s.words [] hlt]
            exact List.getElem_mem hlt
          have hpos : 0 < (s.words.getD ((s.currentIndex + 1) % s.words.length) []).length :=
            List.length_pos.mpr (hne _ hmem)
          refine ⟨hlt, ?_⟩
          simp only [Bool.false_eq_true, if_false]
          constructor <;> omega
        · rw [if_neg hc0] at h
          simp only [Except.ok.injEq, Prod.mk.injEq] at h
          rw [← h.1]
          refine ⟨hn, ?_⟩
          simp only [hdel, if_true]
          constructor <;> omega
      · rw [if_neg hdel] at h
        rw [if_neg hdel] at hinv2
        obtain ⟨hc1, hc2⟩ := hinv2
        by_cases hce : s.charIndex + 1 = ((s.words.getD s.currentIndex []).length : Int)
        · rw [if_pos hce] at h
          simp only [Except.ok.injEq, Prod.mk.injEq] at h
          rw [← h.1]
          refine ⟨hn, ?_⟩
          simp only [if_true]
          constructor <;> omega
        · rw [if_neg hce] at h
          simp only [Except.ok.injEq, Prod.mk.injEq] at h
          rw [← h.1]
          refine ⟨hn, ?_⟩
          simp only [hdel, Bool.false_eq_true, if_false]
          constructor <;> omega

/-- Claim C4 (amended): the claimed bounds hold at well-formed states and are
preserved by every animation tick (all words non-empty) and by `stop`;
truncation keeps `currentWordIndex` within the (length-preserved) word list;
restoring after a first truncation returns the original list, keeping the
index in range.  (A mobile-mode truncation can, however, break
`charIndex ≤ length(currentWord)` — see the counterexample.) -/
theorem c4_invariant_amended (s : Widget) (hne : ∀ w ∈ s.words, w ≠ [])
    (hinv : wfInv s) :
    claimInv s ∧
    (∀ s2 d, animate s = .ok (s2, d) → wfInv s2 ∧ claimInv s2) ∧
    wfInv (stop s) ∧
    (truncateLongWords s).currentIndex < (truncateLongWords s).words.length ∧
    (s.originalWords = none →
      (restoreOriginalWords (truncateLongWords s)).words = s.words ∧
      (restoreOriginalWords (truncateLongWords s)).currentIndex
        < (restoreOriginalWords (truncateLongWords s)).words.length) := by
  refine ⟨wfInv_claimInv s hinv, ?_, ?_, ?_, ?_⟩
  · intro s2 d h
    have h2 := animate_preserves_wfInv s hne hinv s2 d h
    exact ⟨h2, wfInv_claimInv s2 h2⟩
  · exact hinv
  · simp only [truncateLongWords, List.length_map]
    exact hinv.1
  · intro hcache
    simp only [truncateLongWords, restoreOriginalWords, hcache, Option.getD]
    exact ⟨trivial, hinv.1⟩

def c4long : List Char :=
  'a' :: 'b' :: 'c' :: 'd' :: 'e' :: 'f' :: 'g' :: 'h' :: 'i' :: 'j' :: 'k' :: 'l' :: 'm' ::
  'n' :: 'o' :: 'p' :: 'q' :: 'r' :: 's' :: 't' :: 'u' :: 'v' :: 'w' :: 'x' :: 'y' :: []

/-- A state reached by constructing a widget on a 25-character word at
desktop width, letting the delayed `start` plus 23 further ticks type up to
`charIndex = 24`, then evaluating the responsive handler at mobile width. -/
def c4reach : Widget :=
  handleResponsive 500
    (afterTicks { construct c4long true true noOverrides 1024 with isRunning := true } 24)

/-- Counterexample for C4: after the mobile-mode swap the active current word
has 23 characters but `charIndex` is 24, so `charIndex ≤ length(currentWord)`
fails at a reachable state. -/
theorem c4_counterexample :
    ¬ (c4reach.charIndex ≤ ((c4reach.words.getD c4reach.currentIndex []).length : Int)) := by
  decide

def c4w : Widget := midState (('a' :: 'b' :: []) :: []) (mergeOptions noOverrides) 0 1 false ('a' :: [])

/-- Witness for C4 (amended) at a concrete mid-typing state on the word "ab". -/
theorem c4_invariant_amended_witness :
    (∀ w ∈ c4w.words, w ≠ []) ∧ wfInv c4w ∧ claimInv c4w :=
  ⟨by decide, by decide, (c4_invariant_amended c4w (by decide) (by decide)).1⟩

theorem restore_opts (s : Widget) : (restoreOriginalWords s).opts = s.opts := by
  rw [restoreOriginalWords]
  cases s.originalWords <;> rfl

theorem restore_words_of_cached (s : Widget) (o : List (List Char))
    (h : s.originalWords = some o) : (restoreOriginalWords s).words = o := by
  rw [restoreOriginalWords, h]

/-- Claim C6: entering mobile mode truncates every over-long word (a
25-character word becomes its first 20 characters plus "..." under
maxWordLength = 20), caches the original list only when no cache exists yet
(a second mobile evaluation leaves the cache untouched), and leaving mobile
mode restores the original word list bit-for-bit. -/
theorem c6_truncation_roundtrip (s : Widget) (w : List Char) (wm wd : ℚ)
    (hw25 : w.length = 25) (hmax : s.opts.maxWordLength = 20)
    (hcache : s.originalWords = none)
    (hm : wm < s.opts.responsiveBreakpoint) (hd : ¬ wd < s.opts.responsiveBreakpoint) :
    truncateWord s.opts.maxWordLength w = w.take 20 ++ ('.' :: '.' :: '.' :: []) ∧
    (handleResponsive wm s).words = s.words.map (truncateWord s.opts.maxWordLength) ∧
    (handleResponsive wm s).originalWords = some s.words ∧
    (handleResponsive wm (handleResponsive wm s)).originalWords = some s.words ∧
    (handleResponsive wd (handleResponsive wm s)).words = s.words := by
  have hmobile : handleResponsive wm s = adjustTimingForMobile (truncateLongWords s) := by
    rw [handleResponsive, if_pos hm]
  have hbp : (adjustTimingForMobile (truncateLongWords s)).opts.responsiveBreakpoint
      = s.opts.responsiveBreakpoint := rfl
  refine ⟨?_, ?_, ?_, ?_, ?_⟩
  · rw [truncateWord, hmax, if_pos (by omega)]
  · rw [hmobile]
    rfl
  · rw [hmobile]
    simp [adjustTimingForMobile, truncateLongWords, hcache]
  · rw [hmobile, handleResponsive, if_pos (by rw [hbp]; exact hm)]
    simp [adjustTimingForMobile, truncateLongWords, hcache]
  · rw [hmobile, handleResponsive, if_neg (by rw [hbp]; exact hd)]
    have hcached : (adjustTimingForMobile (truncateLongWords s)).originalWords = some s.words := by
      simp [adjustTimingForMobile, truncateLongWords, hcache]
    rw [adjustTimingForDesktop]
    simp only [restore_words_of_cached _ _ hcached]

def c6S : Widget := construct c4long true true noOverrides 1024

/-- Witness for C6: the widget built on the 25-character word, entering
mobile mode at width 500 and leaving it at width 1024. -/
theorem c6_truncation_roundtrip_witness :
    (c4long.length = 25 ∧ c6S.opts.maxWordLength = 20 ∧ c6S.originalWords = none ∧
      (500 : ℚ) < c6S.opts.responsiveBreakpoint ∧ ¬ (1024 : ℚ) < c6S.opts.responsiveBreakpoint) ∧
    truncateWord c6S.opts.maxWordLength c4long = c4long.take 20 ++ ('.' :: '.' :: '.' :: []) ∧
    (handleResponsive 1024 (handleResponsive 500 c6S)).words = c6S.words :=
  ⟨⟨by decide, by decide, by decide, by decide, by decide⟩,
   (c6_truncation_roundtrip c6S c4long 500 1024 (by decide) (by decide) (by decide)
     (by decide) (by decide)).1,
   (c6_truncation_roundtrip c6S c4long 500 1024 (by decide) (by decide) (by decide)
     (by decide) (by decide)).2.2.2.2⟩

/-- Claim C7: `stop()` immediately followed by `start()` resumes mid-word
typing at the preserved `charIndex`: the restart tick renders the prefix one
character longer than before, neither restarting from 0 nor skipping ahead. -/
theorem c7_stop_start_resumes (s : Widget) (w : List Char)
    (ht : s.hasText = true) (hd : s.isDeleting = false)
    (hw : s.words[s.currentIndex]? = some w)
    (hmid : s.charIndex + 1 ≠ (w.length : Int)) :
    (stop s).charIndex = s.charIndex ∧
    (stop s).isRunning = false ∧
    start (stop s) = .ok { s with
      isRunning := true, animationId := true,
      charIndex := s.charIndex + 1, rendered := substring0 w (s.charIndex + 1) } := by
  refine ⟨rfl, rfl, ?_⟩
  rw [start]
  rw [if_neg (by simp [stop])]
  have hmidstep := animate_typing_mid { stop s with isRunning := true } w rfl ht hd hw hmid
  rw [hmidstep]
  rfl

def c7S : Widget :=
  midState (('R' :: 'u' :: 's' :: 't' :: []) :: []) (mergeOptions noOverrides) 0 2 false
    ('R' :: 'u' :: [])

/-- Witness for C7: word "Rust" stopped at `charIndex = 2` ("Ru"); the
restart renders "Rus". -/
theorem c7_stop_start_resumes_witness :
    (c7S.hasText = true ∧ c7S.isDeleting = false ∧ c7S.charIndex = 2 ∧
      c7S.words[c7S.currentIndex]? = some ('R' :: 'u' :: 's' :: 't' :: []) ∧
      c7S.charIndex + 1 ≠ ((('R' :: 'u' :: 's' :: 't' :: []).length : Nat) : Int)) ∧
    (stop c7S).charIndex = c7S.charIndex ∧
    start (stop c7S) = .ok { c7S with
      isRunning := true, animationId := true,
      charIndex := c7S.charIndex + 1,
      rendered := substring0 ('R' :: 'u' :: 's' :: 't' :: []) (c7S.charIndex + 1) } ∧
    (match start (stop c7S) with
      | .ok t => t.rendered
      | .error _ => []) = 'R' :: 'u' :: 's' :: [] :=
  ⟨⟨rfl, rfl, rfl, rfl, by decide⟩,
   (c7_stop_start_resumes c7S ('R' :: 'u' :: 's' :: 't' :: []) rfl rfl rfl (by decide)).1,
   (c7_stop_start_resumes c7S ('R' :: 'u' :: 's' :: 't' :: []) rfl rfl rfl (by decide)).2.2,
   by decide⟩

def c8inert : Widget := construct ('H' :: 'i' :: []) false true noOverrides 1024

/-- Counterexample for C8: the constructor with a missing text sub-element
returns an inert instance, yet `start()` is still invocable on it and throws
(so public operations are neither unexposed nor fault-free). -/
theorem c8_counterexample : isError (start c8inert) = true := by decide

/-- Claim C8 (amended): with the text sub-element missing, construction aborts
gracefully (warns, skips `init`, never sets the running flag, keeps the merged
options untouched), and `stop()` on the inert widget is an identity no-op; but
the methods remain exposed: `start()` on the inert widget runs a tick that
throws as soon as the (non-empty) word list makes it touch the missing text
element. -/
theorem c8_inert_on_missing_elements (d : List Char) (hC : Bool)
    (ov : OptionOverrides) (widthQ : ℚ) (hne : parseWords d ≠ []) :
    (construct d false hC ov widthQ).warned = true ∧
    (construct d false hC ov widthQ).isRunning = false ∧
    (construct d false hC ov widthQ).opts = mergeOptions ov ∧
    stop (construct d false hC ov widthQ) = construct d false hC ov widthQ ∧
    isError (start (construct d false hC ov widthQ)) = true := by
  have hcon : construct d false hC ov widthQ =
      { initialState d false hC ov with warned := true } := by
    rw [construct]
    simp
  obtain ⟨a, t, heq⟩ := List.exists_cons_of_ne_nil hne
  refine ⟨by rw [hcon], by rw [hcon]; rfl, by rw [hcon]; rfl, by rw [hcon]; rfl, ?_⟩
  rw [hcon, start]
  rw [if_neg (by simp [initialState])]
  rw [animate]
  simp [initialState, heq, isError, Except.map]

/-- Witness for C8 (amended) on the word list "Hi" with the cursor element
present but the text element missing. -/
theorem c8_inert_on_missing_elements_witness :
    parseWords ('H' :: 'i' :: []) ≠ [] ∧
    (construct ('H' :: 'i' :: []) false true noOverrides 1024).warned = true ∧
    (construct ('H' :: 'i' :: []) false true noOverrides 1024).isRunning = false ∧
    isError (start (construct ('H' :: 'i' :: []) false true noOverrides 1024)) = true :=
  ⟨by decide,
   (c8_inert_on_missing_elements ('H' :: 'i' :: []) true noOverrides 1024 (by decide)).1,
   (c8_inert_on_missing_elements ('H' :: 'i' :: []) true noOverrides 1024 (by decide)).2.1,
   (c8_inert_on_missing_elements ('H' :: 'i' :: []) true noOverrides 1024 (by decide)).2.2.2.2⟩

/-- Claim C9: the constructor (with both sub-elements present) synchronously
evaluates the responsive handler, so the three timing options always end up
at the fixed mode profile (80/40/1500 below the breakpoint, 100/50/2000 at or
above it) regardless of caller-supplied overrides, and every later responsive
evaluation re-imposes a fixed profile the same way. -/
theorem c9_timing_profile_overwrites (d : List Char) (ov : OptionOverrides)
    (widthQ : ℚ) (s : Widget) (w2 : ℚ) :
    ((construct d true true ov widthQ).opts.typingSpeed
        = (if widthQ < (mergeOptions ov).responsiveBreakpoint then 80 else 100) ∧
     (construct d true true ov widthQ).opts.deletingSpeed
        = (if widthQ < (mergeOptions ov).responsiveBreakpoint then 40 else 50) ∧
     (construct d true true ov widthQ).opts.pauseDuration
        = (if widthQ < (mergeOptions ov).responsiveBreakpoint then 1500 else 2000)) ∧
    ((handleResponsive w2 s).opts.typingSpeed
        = (if w2 < s.opts.responsiveBreakpoint then 80 else 100) ∧
     (handleResponsive w2 s).opts.deletingSpeed
        = (if w2 < s.opts.responsiveBreakpoint then 40 else 50) ∧
     (handleResponsive w2 s).opts.pauseDuration
        = (if w2 < s.opts.responsiveBreakpoint then 1500 else 2000)) := by
  have hpart : ∀ (x : Widget) (wq : ℚ),
      (handleResponsive wq x).opts.typingSpeed
        = (if wq < x.opts.responsiveBreakpoint then 80 else 100) ∧
      (handleResponsive wq x).opts.deletingSpeed
        = (if wq < x.opts.responsiveBreakpoint then 40 else 50) ∧
      (handleResponsive wq x).opts.pauseDuration
        = (if wq < x.opts.responsiveBreakpoint then 1500 else 2000) := by
    intro x wq
    rw [handleResponsive]
    by_cases hb : wq < x.opts.responsiveBreakpoint
    · rw [if_pos hb]
      simp [adjustTimingForMobile, hb]
    · rw [if_neg hb]
      simp [adjustTimingForDesktop, hb]
  constructor
  · have h2 := hpart (initialState d true true ov) widthQ
    rw [construct]
    simpa [initialState] using h2
  · exact hpart s w2

end Typewriter
